import Mathlib

/-!
Verification of the parkshare booking/payment core against its specification.

The Python sources under `parking/` and `payments/` are embedded shallowly:
Django model rows become Lean structures, the serializer/view methods become
pure functions over an explicit `World` state, datetimes become integral
minutes, and `Decimal` money amounts become integers.  Parts of the repository
that the provided sources only call into (the `Booking` model methods and the
webhook handler) are modelled from the specification text and are marked as
such in their doc comments.
-/

namespace ParkShare

/-- Booking.BookingType choices (HOURLY / DAILY / MONTHLY). -/
inductive BookingType where
  | hourly
  | daily
  | monthly
deriving DecidableEq, Repr

/-- Booking.Status choices. -/
inductive BookingStatus where
  | pending
  | confirmed
  | active
  | completed
  | cancelled
  | expired
deriving DecidableEq, Repr

/-- The statuses that occupy a spot for conflict purposes:
PENDING, CONFIRMED and ACTIVE (spec I1). -/
def BookingStatus.blocksSpot : BookingStatus → Bool
  | .pending => true
  | .confirmed => true
  | .active => true
  | _ => false

/-- The fields of ParkingSpot the booking core reads: the price schedule and
the active flag.  Other spot attributes (location, covering, ...) carry no
booking logic and are omitted. -/
structure ParkingSpot where
  id : Nat
  hourly_price : Int
  daily_price : Int
  monthly_price : Int
  is_active : Bool
deriving DecidableEq, Repr

/-- A Booking row.  Times are minutes (integers); money is integral.
The vehicle foreign key is omitted: no logic reads it. -/
structure Booking where
  id : Nat
  user : Nat
  spot : ParkingSpot
  booking_type : BookingType
  start_at : Int
  end_at : Int
  status : BookingStatus
  total_price : Int
  currency : String
  is_paid : Bool
  external_payment_id : String
deriving DecidableEq, Repr

/-- Ceiling division for positive divisors, on integers. -/
def ceilDiv (a b : Int) : Int := (a + b - 1) / b

/-- Modelled from the spec: `Booking.calculate_price` lives in
`parking/models.py`, which is not among the provided sources.  Spec 4.2:
HOURLY price is ceil(duration in hours) times the hourly rate, DAILY uses
days, MONTHLY uses months (a month is modelled as 30 days).  The optional
dynamic-pricing multiplier is a collaborator outside the claims and is not
modelled.  Durations are in minutes. -/
def calculate_price (spot : ParkingSpot) (start_at end_at : Int)
    (t : BookingType) : Int :=
  let dur := end_at - start_at
  match t with
  | .hourly => ceilDiv dur 60 * spot.hourly_price
  | .daily => ceilDiv dur (60 * 24) * spot.daily_price
  | .monthly => ceilDiv dur (60 * 24 * 30) * spot.monthly_price

/-- The half-open interval overlap test of spec I1:
`a.start < b.end AND b.start < a.end`. -/
def overlaps (s1 e1 s2 e2 : Int) : Bool := s1 < e2 && s2 < e1

/-- Modelled from the spec: `Booking.is_spot_available` lives in
`parking/models.py`, which is not among the provided sources.  Spec 4.1: true
iff no booking with status in PENDING, CONFIRMED, ACTIVE on the same spot
overlaps `[start, end)` per the half-open test, optionally ignoring the
booking named by `exclude` (used when editing). -/
def is_spot_available (bookings : List Booking) (spot : Nat)
    (start_at end_at : Int) (exclude : Option Nat) : Bool :=
  bookings.all fun b =>
    !(b.spot.id == spot && b.status.blocksSpot && exclude != some b.id
      && overlaps start_at end_at b.start_at b.end_at)

/-- The distinct failures BookingSerializer.validate / update and
BookingViewSet raise, one constructor per raise site (each carries its own
message in the source). -/
inductive BookingErr where
  | missingData
  | startNotBeforeEnd
  | startInPast
  | spotInactive
  | spotUnavailable
  | editNotPending
  | notFound
deriving DecidableEq, Repr

/-- The error taxonomy of spec section 7 together with the classes the code
can actually raise, so the two can be compared.  Every raise site in
BookingSerializer uses `rest_framework.serializers.ValidationError`
(an HTTP 400); the view object lookup is the only 404. -/
inductive ErrorKind where
  | validationError
  | conflictError
  | stateError
  | notFoundError
deriving DecidableEq, Repr

/-- The exception class each BookingErr is raised with in the source: every
branch of `BookingSerializer.validate` (parking/serializers.py 150-179) and of
`BookingSerializer.update` (194-205) raises `serializers.ValidationError`. -/
def BookingErr.raisedClass : BookingErr → ErrorKind
  | .notFound => .notFoundError
  | _ => .validationError

/-- The writable booking fields a request may carry; `none` means the field
was absent from the request (DRF partial update). -/
structure BookingAttrs where
  spot : Option ParkingSpot
  start_at : Option Int
  end_at : Option Int
  booking_type : Option BookingType
deriving DecidableEq, Repr

/-- The merged attrs validate returns on success (it writes the merged values
back into `attrs` before returning). -/
structure ValidatedBooking where
  spot : ParkingSpot
  start_at : Int
  end_at : Int
  booking_type : BookingType
deriving DecidableEq, Repr

/-- The spot a request resolves to: `attrs.get("spot", instance.spot)`. -/
def mergedSpot (inst : Option Booking) (attrs : BookingAttrs) :
    Option ParkingSpot :=
  match attrs.spot with
  | some s => some s
  | none => inst.map (·.spot)

/-- The start a request resolves to: `attrs.get("start_at", instance.start_at)`. -/
def mergedStart (inst : Option Booking) (attrs : BookingAttrs) : Option Int :=
  match attrs.start_at with
  | some s => some s
  | none => inst.map (·.start_at)

/-- The end a request resolves to: `attrs.get("end_at", instance.end_at)`. -/
def mergedEnd (inst : Option Booking) (attrs : BookingAttrs) : Option Int :=
  match attrs.end_at with
  | some e => some e
  | none => inst.map (·.end_at)

/-- The booking type a request resolves to:
`attrs.get("booking_type", getattr(instance, "booking_type", HOURLY))`. -/
def mergedType (inst : Option Booking) (attrs : BookingAttrs) : BookingType :=
  match attrs.booking_type with
  | some t => t
  | none =>
    match inst with
    | some i => i.booking_type
    | none => .hourly

/-- Embeds `BookingSerializer.validate` (parking/serializers.py 150-179):
each requested field falls back to the instance value when editing; missing
spot or interval, a non-positive interval, a start in the past, an inactive
spot, and an unavailable interval are rejected in that order.  The
availability check excludes the instance itself when editing. -/
def BookingSerializer.validate (bookings : List Booking)
    (inst : Option Booking) (attrs : BookingAttrs) (now : Int) :
    Except BookingErr ValidatedBooking :=
  match mergedSpot inst attrs, mergedStart inst attrs, mergedEnd inst attrs with
  | some spot, some start_at, some end_at =>
    if end_at ≤ start_at then .error .startNotBeforeEnd
    else if start_at < now then .error .startInPast
    else if !spot.is_active then .error .spotInactive
    else if !is_spot_available bookings spot.id start_at end_at
        (inst.map (·.id)) then .error .spotUnavailable
    else .ok { spot := spot, start_at := start_at, end_at := end_at,
               booking_type := mergedType inst attrs }
  | _, _, _ => .error .missingData

/-- Payment.Status choices (payments/models.py 26-31). -/
inductive PaymentStatus where
  | created
  | pending
  | succeeded
  | cancelled
  | failed
deriving DecidableEq, Repr

/-- The three terminal payment statuses (spec 4.5). -/
def PaymentStatus.isTerminal : PaymentStatus → Bool
  | .succeeded => true
  | .cancelled => true
  | .failed => true
  | _ => false

/-- A Payment row (payments/models.py).  `booking` is the OneToOne foreign
key; raw provider payloads are kept as opaque strings. -/
structure Payment where
  id : Nat
  booking : Nat
  payer : Nat
  provider : String
  provider_payment_id : String
  amount : Int
  currency : String
  status : PaymentStatus
  success : Bool
  failure : Bool
  raw_response : Option String
  raw_webhook : Option String
deriving DecidableEq, Repr

/-- Embeds `Payment.is_active` (payments/models.py 101-106): a payment that
can still become successful, i.e. CREATED or PENDING. -/
def Payment.is_active (p : Payment) : Bool :=
  p.status == .created || p.status == .pending

/-- Embeds `Payment._update_status` (payments/models.py 108-128): overwrites
status and the two flags, and stores the webhook payload when one is given. -/
def Payment.update_status (p : Payment) (status : PaymentStatus)
    (success failure : Bool) (webhook_data : Option String) : Payment :=
  { p with
    status := status
    success := success
    failure := failure
    raw_webhook :=
      match webhook_data with
      | some d => some d
      | none => p.raw_webhook }

/-- The whole persistent state the claims range over: the booking and payment
tables plus the next auto-generated primary keys. -/
structure World where
  bookings : List Booking
  payments : List Payment
  nextBookingId : Nat
  nextPaymentId : Nat
deriving DecidableEq, Repr

/-- The empty database. -/
def World.init : World :=
  { bookings := [], payments := [], nextBookingId := 0, nextPaymentId := 0 }

/-- Primary-key lookup on the booking table. -/
def findBooking (w : World) (id : Nat) : Option Booking :=
  w.bookings.find? (·.id == id)

/-- Saving a booking row: the row with the same primary key is overwritten. -/
def replaceBooking (bs : List Booking) (b : Booking) : List Booking :=
  bs.map fun x => if x.id == b.id then b else x

/-- Saving a payment row: the row with the same primary key is overwritten. -/
def replacePayment (ps : List Payment) (p : Payment) : List Payment :=
  ps.map fun x => if x.id == p.id then p else x

/-- Modelled from the spec: `Booking.mark_paid` (the `confirm_paid` transition
of spec 4.3) lives in `parking/models.py`, which is not among the provided
sources.  It is idempotent, sets paid, records the provider payment reference,
and moves PENDING to CONFIRMED. -/
def Booking.mark_paid (b : Booking) (payment_id : String) : Booking :=
  { b with
    is_paid := true
    external_payment_id := payment_id
    status := if b.status == .pending then .confirmed else b.status }

/-- Embeds `Payment.mark_succeeded` (payments/models.py 130-147): updates the
payment to SUCCEEDED via update_status, then calls `booking.mark_paid` with
the provider payment id on the related booking. -/
def World.mark_succeeded (w : World) (p : Payment)
    (webhook_data : Option String) : World :=
  let p2 := p.update_status .succeeded true false webhook_data
  let w2 := { w with payments := replacePayment w.payments p2 }
  match findBooking w2 p.booking with
  | some b =>
    { w2 with
      bookings := replaceBooking w2.bookings (b.mark_paid p2.provider_payment_id) }
  | none => w2

/-- Embeds `Payment.mark_failed` (payments/models.py 149-158). -/
def World.mark_failed (w : World) (p : Payment)
    (webhook_data : Option String) : World :=
  { w with payments := replacePayment w.payments (p.update_status .failed false true webhook_data) }

/-- Embeds `Payment.mark_cancelled` (payments/models.py 160-169); note the
source sets the failure flag for cancellations as well. -/
def World.mark_cancelled (w : World) (p : Payment)
    (webhook_data : Option String) : World :=
  { w with payments := replacePayment w.payments (p.update_status .cancelled false true webhook_data) }

/-- The three terminal outcomes a provider webhook can report (spec 4.4). -/
inductive WebhookOutcome where
  | succeeded
  | failed
  | cancelled
deriving DecidableEq, Repr

/-- The payment status a webhook outcome drives the payment to. -/
def WebhookOutcome.targetStatus : WebhookOutcome → PaymentStatus
  | .succeeded => .succeeded
  | .failed => .failed
  | .cancelled => .cancelled

/-- Booking-side side effects performed while applying a webhook; used to
state that a replay performs none. -/
inductive WebhookEffect where
  | confirmPaid (bookingId : Nat)
deriving DecidableEq, Repr

/-- Modelled from the spec: the webhook handler (`apply_webhook`, spec 4.5 and
section 5) is not among the provided sources, only the `Payment.mark_*`
methods it calls are.  It looks the payment up by the provider's remote id,
acknowledges unknown ids as a no-op, is a no-op when the payment is already
terminal (in particular when the target status is already reached), and
otherwise applies the matching `mark_*` transition from payments/models.py;
a SUCCEEDED outcome confirms the related booking as paid.  Returns the new
world together with the booking-side effects performed. -/
def apply_webhook (w : World) (remote_id : String) (outcome : WebhookOutcome)
    (payload : String) : World × List WebhookEffect :=
  match w.payments.find? (·.provider_payment_id == remote_id) with
  | none => (w, [])
  | some p =>
    if p.status.isTerminal then (w, [])
    else
      match outcome with
      | .succeeded => (w.mark_succeeded p (some payload), [.confirmPaid p.booking])
      | .failed => (w.mark_failed p (some payload), [])
      | .cancelled => (w.mark_cancelled p (some payload), [])

/-- Embeds `BookingSerializer.create` (parking/serializers.py 181-192) within
the DRF flow (validate, then create): the validated fields plus the requesting
user make a new row whose price is computed by `calculate_price`, whose
currency is the fixed "RUB", and whose status is PENDING. -/
def createBooking (w : World) (user : Nat) (attrs : BookingAttrs) (now : Int) :
    Except BookingErr (World × Booking) :=
  match BookingSerializer.validate w.bookings none attrs now with
  | .error e => .error e
  | .ok v =>
    let b : Booking :=
      { id := w.nextBookingId
        user := user
        spot := v.spot
        booking_type := v.booking_type
        start_at := v.start_at
        end_at := v.end_at
        status := .pending
        total_price := calculate_price v.spot v.start_at v.end_at v.booking_type
        currency := "RUB"
        is_paid := false
        external_payment_id := "" }
    .ok ({ w with
            bookings := w.bookings ++ [b]
            nextBookingId := w.nextBookingId + 1 }, b)

/-- Embeds the DRF update flow for bookings: object lookup, then
`BookingSerializer.validate` with the instance set (parking/serializers.py
150-179; the availability check excludes the instance id), then
`BookingSerializer.update` (194-205), which assigns the validated fields,
rejects unless the stored status is PENDING, recomputes the price and saves.
A raised error means nothing was saved. -/
def editBooking (w : World) (id : Nat) (attrs : BookingAttrs) (now : Int) :
    Except BookingErr (World × Booking) :=
  match findBooking w id with
  | none => .error .notFound
  | some inst =>
    match BookingSerializer.validate w.bookings (some inst) attrs now with
    | .error e => .error e
    | .ok v =>
      if inst.status != .pending then .error .editNotPending
      else
        let b : Booking :=
          { inst with
            spot := v.spot
            start_at := v.start_at
            end_at := v.end_at
            booking_type := v.booking_type }
        let b2 := { b with total_price := calculate_price v.spot v.start_at v.end_at v.booking_type }
        .ok ({ w with bookings := replaceBooking w.bookings b2 }, b2)

/-- The database state after an edit request: unchanged when the serializer
raised. -/
def applyEdit (w : World) (id : Nat) (attrs : BookingAttrs) (now : Int) : World :=
  match editBooking w id attrs now with
  | .ok (w2, _) => w2
  | .error _ => w

/-- The failures of `BookingViewSet.destroy`. -/
inductive CancelErr where
  | notFound
  | alreadyStarted
deriving DecidableEq, Repr

/-- Modelled from the spec: `Booking.has_started` lives in `parking/models.py`,
which is not among the provided sources.  Spec 4.3: cancellation is allowed
only while `now < start`, so the interval has started once `start ≤ now`. -/
def Booking.has_started (b : Booking) (now : Int) : Bool := b.start_at ≤ now

/-- Embeds `BookingViewSet.destroy` (parking/views.py 188-201): a booking that
has already started yields an HTTP 400 with no change; otherwise the status
becomes CANCELLED and only that field is saved. -/
def cancelBooking (w : World) (id : Nat) (now : Int) : Except CancelErr World :=
  match findBooking w id with
  | none => .error .notFound
  | some inst =>
    if inst.has_started now then .error .alreadyStarted
    else .ok { w with bookings := replaceBooking w.bookings { inst with status := .cancelled } }

/-- The database state after a cancellation request: unchanged when the view
answered 400 or 404. -/
def applyCancel (w : World) (id : Nat) (now : Int) : World :=
  match cancelBooking w id now with
  | .ok w2 => w2
  | .error _ => w

/-- Modelled from the spec: the expiration sweep (`expire`, spec 4.3 and 4.6)
is not among the provided sources.  A PENDING booking becomes EXPIRED only
when no SUCCEEDED payment exists for it; otherwise nothing changes. -/
def expireBooking (w : World) (id : Nat) : World :=
  match findBooking w id with
  | none => w
  | some b =>
    if b.status == .pending
        && !(w.payments.any fun p => p.booking == id && p.status == .succeeded) then
      { w with bookings := replaceBooking w.bookings { b with status := .expired } }
    else w

/-- The distinct failures of payment initiation, one constructor per raise
site in payments/serializers.py. -/
inductive PaymentErr where
  | bookingNotFound
  | foreignBooking
  | bookingNotPendingOrPaid
  | bookingCancelledExpiredOrPast
  | nonPositiveAmount
  | succeededPaymentExists
  | gatewayError
  | pythonTypeError
deriving DecidableEq, Repr

/-- Embeds `PaymentSerializer.validate` (payments/serializers.py 67-97):
resolves the booking primary key, then rejects foreign bookings, bookings
that are paid or not PENDING, cancelled/expired/past bookings, and
non-positive amounts, in that order. -/
def PaymentSerializer.validate (w : World) (user : Nat) (booking_id : Nat)
    (now : Int) : Except PaymentErr Booking :=
  match findBooking w booking_id with
  | none => .error .bookingNotFound
  | some booking =>
    if booking.user ≠ user then .error .foreignBooking
    else if booking.is_paid || booking.status != .pending then
      .error .bookingNotPendingOrPaid
    else if booking.status == .cancelled || booking.status == .expired
        || booking.end_at ≤ now then
      .error .bookingCancelledExpiredOrPast
    else if booking.total_price ≤ 0 then .error .nonPositiveAmount
    else .ok booking

/-- What the `create_yookassa_payment(...)` call inside
`PaymentSerializer.create` is observed to do: return a confirmation url,
a provider payment id and a raw payload, raise the provider's `YooKassaError`
(caught and re-raised as a validation error), or raise some other Python
error, which propagates.  It is a boundary to an external gateway, so the
serializer logic is embedded with this result as a parameter; what the call
in this code base actually produces is settled separately below. -/
inductive ProviderCallResult where
  | ok (payment_url : String) (provider_payment_id : String) (raw : String)
  | yooKassaError (msg : String)
  | pythonError
deriving DecidableEq, Repr

/-- Embeds the tail of `PaymentSerializer.create` (payments/serializers.py
120-135): the provider call, then the provider fields, the PENDING status and
the raw response are written and the row is saved.  On YooKassaError a
validation error is raised instead; any other exception propagates; in both
error cases nothing has been saved. -/
def PaymentSerializer.finishCreate (w : World) (payment : Payment)
    (isNew : Bool) (r : ProviderCallResult) :
    Except PaymentErr (World × Payment × String) :=
  match r with
  | .yooKassaError _ => .error .gatewayError
  | .pythonError => .error .pythonTypeError
  | .ok url pid raw =>
    let p2 : Payment :=
      { payment with
        provider := "yookassa"
        provider_payment_id := pid
        status := .pending
        success := false
        failure := false
        raw_response := some raw }
    let w2 :=
      if isNew then
        { w with
          payments := w.payments ++ [p2]
          nextPaymentId := w.nextPaymentId + 1 }
      else { w with payments := replacePayment w.payments p2 }
    .ok (w2, p2, url)

/-- Embeds `PaymentSerializer.create` (payments/serializers.py 99-135): the
existing payment of the booking (the OneToOne reverse accessor) is reused
unless it is SUCCEEDED, in which case a validation error is raised; with no
existing payment a fresh row is built with the model defaults, the booking's
total price and its currency (falling back to "RUB" when empty). -/
def PaymentSerializer.create (w : World) (user : Nat) (booking : Booking)
    (r : ProviderCallResult) : Except PaymentErr (World × Payment × String) :=
  match w.payments.find? (·.booking == booking.id) with
  | some e =>
    if e.status == .succeeded then .error .succeededPaymentExists
    else PaymentSerializer.finishCreate w e false r
  | none =>
    let fresh : Payment :=
      { id := w.nextPaymentId
        booking := booking.id
        payer := user
        provider := "yookassa"
        provider_payment_id := ""
        amount := booking.total_price
        currency := if booking.currency == "" then "RUB" else booking.currency
        status := .created
        success := false
        failure := false
        raw_response := none
        raw_webhook := none }
    PaymentSerializer.finishCreate w fresh true r

/-- Payment initiation as exposed by the API: `PaymentSerializer.validate`
followed by `PaymentSerializer.create`. -/
def initiate (w : World) (user : Nat) (booking_id : Nat) (now : Int)
    (r : ProviderCallResult) : Except PaymentErr (World × Payment × String) :=
  match PaymentSerializer.validate w user booking_id now with
  | .error e => .error e
  | .ok booking => PaymentSerializer.create w user booking r

/-- The database state after an initiation request: unchanged when the
serializer raised, because every raise happens before any save. -/
def applyInitiate (w : World) (user : Nat) (booking_id : Nat) (now : Int)
    (r : ProviderCallResult) : World :=
  match initiate w user booking_id now r with
  | .ok (w2, _, _) => w2
  | .error _ => w

/-- The abstract methods `PaymentProvider` declares
(payments/providers/base.py 12-41). -/
def PaymentProvider.abstractMethods : List String :=
  ["create_payment", "handle_webhook", "refund"]

/-- The methods `YooKassaProvider` actually defines
(payments/providers/yookassa.py 33-86). -/
def YooKassaProvider.definedMethods : List String :=
  ["create_payment"]

/-- The abstract methods `YooKassaProvider` leaves unimplemented. -/
def YooKassaProvider.unimplementedAbstractMethods : List String :=
  PaymentProvider.abstractMethods.filter
    (fun m => !(YooKassaProvider.definedMethods.contains m))

/-- Python runtime errors relevant here. -/
inductive PyError where
  | typeError
  | valueError
deriving DecidableEq, Repr

/-- Python ABC semantics: instantiating a class whose set of unimplemented
abstract methods is non-empty raises TypeError before `__init__` runs. -/
def instantiateYooKassaProvider : Except PyError Unit :=
  if YooKassaProvider.unimplementedAbstractMethods.isEmpty then .ok ()
  else .error .typeError

/-- Embeds `get_payment_provider` (payments/providers/__init__.py 21-25):
the name "yookassa" (the default) constructs a `YooKassaProvider`; any other
name raises ValueError. -/
def get_payment_provider (provider_name : String) : Except PyError Unit :=
  if provider_name == "yookassa" then instantiateYooKassaProvider
  else .error .valueError

/-- Embeds the prefix of `create_yookassa_payment`
(payments/providers/yookassa.py 89-98) through its first statement: it
constructs `YooKassaProvider()`, so a correctly arity-matched call inherits
whatever that construction does before any gateway traffic can happen. -/
def create_yookassa_payment_entry : Except PyError Unit :=
  instantiateYooKassaProvider

/-- The number of parameters `create_yookassa_payment` declares
(request, payment, return_url), none with defaults. -/
def create_yookassa_payment_paramCount : Nat := 3

/-- The number of arguments `PaymentSerializer.create` passes at
payments/serializers.py line 121 (`create_yookassa_payment(booking)`). -/
def serializer_callsite_argCount : Nat := 1

/-- Python call semantics at the serializer's call site: a call with the
wrong number of positional arguments raises TypeError before the callee body
runs; otherwise the callee runs, which here means constructing
`YooKassaProvider()`. -/
def create_yookassa_payment_callsite : Except PyError Unit :=
  if serializer_callsite_argCount == create_yookassa_payment_paramCount
  then create_yookassa_payment_entry
  else .error .typeError

/-- One transition of the core: each constructor fires one operation of the
claims (booking creation, edit, cancellation, payment initiation, webhook
application — which performs confirm-paid on success — and expiration).
Requests that raise leave the state unchanged and need no transition. -/
inductive Step : World → World → Prop where
  | create (user : Nat) (attrs : BookingAttrs) (now : Int) (w w2 : World)
      (b : Booking) :
      createBooking w user attrs now = .ok (w2, b) → Step w w2
  | edit (id : Nat) (attrs : BookingAttrs) (now : Int) (w w2 : World)
      (b : Booking) :
      editBooking w id attrs now = .ok (w2, b) → Step w w2
  | cancel (id : Nat) (now : Int) (w w2 : World) :
      cancelBooking w id now = .ok w2 → Step w w2
  | initiatePayment (user booking_id : Nat) (now : Int)
      (r : ProviderCallResult) (w : World) :
      Step w (applyInitiate w user booking_id now r)
  | webhook (remote_id payload : String) (o : WebhookOutcome) (w : World) :
      Step w (apply_webhook w remote_id o payload).1
  | expire (id : Nat) (w : World) :
      Step w (expireBooking w id)

/-- The states the core can reach from the empty database. -/
inductive Reachable : World → Prop where
  | init : Reachable World.init
  | step {w w2 : World} : Reachable w → Step w w2 → Reachable w2

/-- Spec I1 / section 8: no two distinct bookings that occupy a spot
(status PENDING, CONFIRMED or ACTIVE) on the same spot have overlapping
half-open intervals, with the overlap test `a.start < b.end AND
b.start < a.end`. -/
def NoDoubleBooking (bs : List Booking) : Prop :=
  ∀ a ∈ bs, ∀ b ∈ bs, a.id ≠ b.id → a.status.blocksSpot = true →
    b.status.blocksSpot = true → a.spot.id = b.spot.id →
    ¬(a.start_at < b.end_at ∧ b.start_at < a.end_at)

/-- The well-formedness facts that hold in every reachable state: primary keys
are unique and below the id counters, the no-double-booking invariant holds,
and payments have pairwise distinct bookings (the OneToOne key). -/
structure GoodWorld (w : World) : Prop where
  bNodup : (w.bookings.map (·.id)).Nodup
  bBound : ∀ b ∈ w.bookings, b.id < w.nextBookingId
  noDouble : NoDoubleBooking w.bookings
  pNodup : (w.payments.map (·.id)).Nodup
  pBound : ∀ p ∈ w.payments, p.id < w.nextPaymentId
  oneP : (w.payments.map (·.booking)).Nodup

lemma replace_if_id_booking (b x : Booking) :
    (if x.id == b.id then b else x).id = x.id := by
  by_cases h : (x.id == b.id) = true
  · rw [if_pos h]
    exact (beq_iff_eq.mp h).symm
  · rw [if_neg h]

lemma replace_if_id_payment (p x : Payment) :
    (if x.id == p.id then p else x).id = x.id := by
  by_cases h : (x.id == p.id) = true
  · rw [if_pos h]
    exact (beq_iff_eq.mp h).symm
  · rw [if_neg h]

lemma replaceBooking_map_id (bs : List Booking) (b : Booking) :
    (replaceBooking bs b).map (·.id) = bs.map (·.id) := by
  unfold replaceBooking
  rw [List.map_map]
  exact List.map_congr_left fun x _ => replace_if_id_booking b x

lemma replacePayment_map_id (ps : List Payment) (p : Payment) :
    (replacePayment ps p).map (·.id) = ps.map (·.id) := by
  unfold replacePayment
  rw [List.map_map]
  exact List.map_congr_left fun x _ => replace_if_id_payment p x

lemma mem_replaceBooking {bs : List Booking} {b y : Booking}
    (hy : y ∈ replaceBooking bs b) :
    ∃ x ∈ bs, y = if x.id == b.id then b else x := by
  simp only [replaceBooking, List.mem_map] at hy
  obtain ⟨x, hx, hxy⟩ := hy
  exact ⟨x, hx, hxy.symm⟩

lemma mem_replacePayment {ps : List Payment} {p y : Payment}
    (hy : y ∈ replacePayment ps p) :
    ∃ x ∈ ps, y = if x.id == p.id then p else x := by
  simp only [replacePayment, List.mem_map] at hy
  obtain ⟨x, hx, hxy⟩ := hy
  exact ⟨x, hx, hxy.symm⟩

lemma replacePayment_map_booking {ps : List Payment} {e p2 : Payment}
    (hnodup : (ps.map (·.id)).Nodup) (he : e ∈ ps) (hid : p2.id = e.id)
    (hbk : p2.booking = e.booking) :
    (replacePayment ps p2).map (·.booking) = ps.map (·.booking) := by
  unfold replacePayment
  rw [List.map_map]
  apply List.map_congr_left
  intro x hx
  by_cases h : (x.id == p2.id) = true
  · have hxe : x = e :=
      List.inj_on_of_nodup_map hnodup hx he (by rw [beq_iff_eq.mp h, hid])
    simp only [Function.comp_apply]
    rw [if_pos h, hbk, hxe]
  · simp only [Function.comp_apply, if_neg h]

lemma avail_no_overlap {bookings : List Booking} {spot : Nat}
    {start_at end_at : Int} {exclude : Option Nat}
    (h : is_spot_available bookings spot start_at end_at exclude = true) :
    ∀ b ∈ bookings, b.spot.id = spot → b.status.blocksSpot = true →
      exclude ≠ some b.id →
      ¬(start_at < b.end_at ∧ b.start_at < end_at) := by
  intro b hb hspot hblock hexc hover
  have hall := (List.all_eq_true.mp h) b hb
  have h1 : (b.spot.id == spot) = true := beq_iff_eq.mpr hspot
  have h3 : (exclude != some b.id) = true := bne_iff_ne.mpr hexc
  have h4 : overlaps start_at end_at b.start_at b.end_at = true := by
    simp [overlaps, hover.1, hover.2]
  simp [h1, hblock, h3, h4] at hall

lemma noDouble_append {bs : List Booking} {b : Booking}
    (h : NoDoubleBooking bs)
    (hav : ∀ x ∈ bs, x.spot.id = b.spot.id → x.status.blocksSpot = true →
      ¬(b.start_at < x.end_at ∧ x.start_at < b.end_at)) :
    NoDoubleBooking (bs ++ [b]) := by
  intro a ha c hc hne hab hcb hspot
  rcases List.mem_append.mp ha with ha' | ha' <;>
    rcases List.mem_append.mp hc with hc' | hc'
  · exact h a ha' c hc' hne hab hcb hspot
  · have hcEq : c = b := List.mem_singleton.mp hc'
    subst hcEq
    intro hover
    exact hav a ha' hspot hab ⟨hover.2, hover.1⟩
  · have haEq : a = b := List.mem_singleton.mp ha'
    subst haEq
    exact hav c hc' hspot.symm hcb
  · have haEq : a = b := List.mem_singleton.mp ha'
    have hcEq : c = b := List.mem_singleton.mp hc'
    subst haEq hcEq
    exact absurd rfl hne

lemma noDouble_replace {bs : List Booking} {b : Booking}
    (h : NoDoubleBooking bs)
    (hav : b.status.blocksSpot = true → ∀ x ∈ bs, x.id ≠ b.id →
      x.spot.id = b.spot.id → x.status.blocksSpot = true →
      ¬(b.start_at < x.end_at ∧ x.start_at < b.end_at)) :
    NoDoubleBooking (replaceBooking bs b) := by
  intro a ha c hc hne hab hcb hspot
  obtain ⟨a0, ha0, haEq⟩ := mem_replaceBooking ha
  obtain ⟨c0, hc0, hcEq⟩ := mem_replaceBooking hc
  by_cases ha1 : (a0.id == b.id) = true <;> by_cases hc1 : (c0.id == b.id) = true
  · rw [if_pos ha1] at haEq
    rw [if_pos hc1] at hcEq
    rw [haEq, hcEq] at hne
    exact absurd rfl hne
  · rw [if_pos ha1] at haEq
    rw [if_neg hc1] at hcEq
    rw [haEq] at hab
    rw [hcEq] at hcb
    rw [haEq, hcEq] at hspot
    rw [haEq, hcEq]
    have hcne : c0.id ≠ b.id := fun hh => hc1 (beq_iff_eq.mpr hh)
    exact hav hab c0 hc0 hcne hspot.symm hcb
  · rw [if_neg ha1] at haEq
    rw [if_pos hc1] at hcEq
    rw [haEq] at hab
    rw [hcEq] at hcb
    rw [haEq, hcEq] at hspot
    rw [haEq, hcEq]
    have hane : a0.id ≠ b.id := fun hh => ha1 (beq_iff_eq.mpr hh)
    intro hover
    exact hav hcb a0 ha0 hane hspot hab ⟨hover.2, hover.1⟩
  · rw [if_neg ha1] at haEq
    rw [if_neg hc1] at hcEq
    rw [haEq] at hab
    rw [hcEq] at hcb
    rw [haEq, hcEq] at hspot hne
    rw [haEq, hcEq]
    exact h a0 ha0 c0 hc0 hne hab hcb hspot

lemma validate_ok_spec {bookings : List Booking} {inst : Option Booking}
    {attrs : BookingAttrs} {now : Int} {v : ValidatedBooking}
    (h : BookingSerializer.validate bookings inst attrs now = .ok v) :
    v.start_at < v.end_at ∧ now ≤ v.start_at ∧ v.spot.is_active = true ∧
    is_spot_available bookings v.spot.id v.start_at v.end_at
      (inst.map (·.id)) = true := by
  unfold BookingSerializer.validate at h
  split at h
  case _ spot start_at end_at hs hst hen =>
    split_ifs at h with h1 h2 h3 h4
    injection h with h5
    subst h5
    exact ⟨not_le.mp h1, not_lt.mp h2, by simpa using h3, by simpa using h4⟩
  case _ => exact absurd h (by simp)

lemma createBooking_ok_spec {w : World} {user : Nat} {attrs : BookingAttrs}
    {now : Int} {w2 : World} {b : Booking}
    (h : createBooking w user attrs now = .ok (w2, b)) :
    ∃ v, BookingSerializer.validate w.bookings none attrs now = .ok v ∧
      b.id = w.nextBookingId ∧ b.user = user ∧ b.spot = v.spot ∧
      b.booking_type = v.booking_type ∧ b.start_at = v.start_at ∧
      b.end_at = v.end_at ∧ b.status = .pending ∧
      b.total_price = calculate_price v.spot v.start_at v.end_at v.booking_type ∧
      b.currency = "RUB" ∧ b.is_paid = false ∧
      w2.bookings = w.bookings ++ [b] ∧
      w2.nextBookingId = w.nextBookingId + 1 ∧
      w2.payments = w.payments ∧ w2.nextPaymentId = w.nextPaymentId := by
  unfold createBooking at h
  split at h
  case _ => exact absurd h (by simp)
  case _ v hv =>
    injection h with h5
    injection h5 with h6 h7
    subst h6
    subst h7
    exact ⟨v, hv, rfl, rfl, rfl, rfl, rfl, rfl, rfl, rfl, rfl, rfl, rfl, rfl,
      rfl, rfl⟩

lemma editBooking_ok_spec {w : World} {id : Nat} {attrs : BookingAttrs}
    {now : Int} {w2 : World} {b : Booking}
    (h : editBooking w id attrs now = .ok (w2, b)) :
    ∃ inst v, findBooking w id = some inst ∧
      BookingSerializer.validate w.bookings (some inst) attrs now = .ok v ∧
      inst.status = .pending ∧
      b.id = inst.id ∧ b.user = inst.user ∧ b.spot = v.spot ∧
      b.booking_type = v.booking_type ∧ b.start_at = v.start_at ∧
      b.end_at = v.end_at ∧ b.status = inst.status ∧
      b.total_price = calculate_price v.spot v.start_at v.end_at v.booking_type ∧
      b.currency = inst.currency ∧ b.is_paid = inst.is_paid ∧
      w2.bookings = replaceBooking w.bookings b ∧
      w2.nextBookingId = w.nextBookingId ∧
      w2.payments = w.payments ∧ w2.nextPaymentId = w.nextPaymentId := by
  unfold editBooking at h
  split at h
  case _ => exact absurd h (by simp)
  case _ inst hfind =>
    split at h
    case _ => exact absurd h (by simp)
    case _ v hv =>
      split at h
      case _ => exact absurd h (by simp)
      case _ hpend =>
        injection h with h5
        injection h5 with h6 h7
        subst h6
        subst h7
        have hpend2 : inst.status = .pending := by
          by_contra hcon
          exact hpend (by simpa using hcon)
        exact ⟨inst, v, hfind, hv, hpend2, rfl, rfl, rfl, rfl, rfl, rfl, rfl,
          rfl, rfl, rfl, rfl, rfl, rfl, rfl⟩

lemma cancelBooking_ok_spec {w : World} {id : Nat} {now : Int} {w2 : World}
    (h : cancelBooking w id now = .ok w2) :
    ∃ inst, findBooking w id = some inst ∧ inst.has_started now = false ∧
      w2.bookings = replaceBooking w.bookings { inst with status := .cancelled } ∧
      w2.nextBookingId = w.nextBookingId ∧
      w2.payments = w.payments ∧ w2.nextPaymentId = w.nextPaymentId := by
  unfold cancelBooking at h
  split at h
  case _ => exact absurd h (by simp)
  case _ inst hfind =>
    split at h
    case _ => exact absurd h (by simp)
    case _ hstarted =>
      injection h with h5
      subst h5
      exact ⟨inst, hfind, by simpa using hstarted, rfl, rfl, rfl, rfl⟩

lemma pvalidate_ok_spec {w : World} {user booking_id : Nat} {now : Int}
    {booking : Booking}
    (h : PaymentSerializer.validate w user booking_id now = .ok booking) :
    findBooking w booking_id = some booking ∧ booking.user = user ∧
    booking.is_paid = false ∧ booking.status = .pending ∧
    now < booking.end_at ∧ 0 < booking.total_price := by
  unfold PaymentSerializer.validate at h
  split at h
  case _ => exact absurd h (by simp)
  case _ bk hfind =>
    split_ifs at h with h1 h2 h3 h4
    injection h with h5
    subst h5
    have h2f : (bk.is_paid || bk.status != BookingStatus.pending)
        = false := by simpa using h2
    have h3f : (bk.status == BookingStatus.cancelled
        || bk.status == BookingStatus.expired
        || decide (bk.end_at ≤ now)) = false := by simpa using h3
    refine ⟨hfind, not_ne_iff.mp h1, ?_, ?_, ?_, not_le.mp h4⟩
    · exact (Bool.or_eq_false_iff.mp h2f).1
    · have := (Bool.or_eq_false_iff.mp h2f).2
      simpa using this
    · have := (Bool.or_eq_false_iff.mp h3f).2
      simpa using this

lemma finishCreate_ok_provider {w : World} {payment : Payment} {isNew : Bool}
    {r : ProviderCallResult} {w2 : World} {p : Payment} {url : String}
    (h : PaymentSerializer.finishCreate w payment isNew r = .ok (w2, p, url)) :
    ∃ pid raw, r = .ok url pid raw := by
  cases r with
  | ok u pid raw =>
    refine ⟨pid, raw, ?_⟩
    simp only [PaymentSerializer.finishCreate] at h
    injection h with h5
    injection h5 with h6 h7
    injection h7 with h8 h9
    rw [h9]
  | yooKassaError msg => simp [PaymentSerializer.finishCreate] at h
  | pythonError => simp [PaymentSerializer.finishCreate] at h

lemma finishCreate_ok_spec {w : World} {payment : Payment} {isNew : Bool}
    {url0 pid raw : String} {w2 : World} {p : Payment} {url : String}
    (h : PaymentSerializer.finishCreate w payment isNew (.ok url0 pid raw)
      = .ok (w2, p, url)) :
    url = url0 ∧
    p = { payment with
          provider := "yookassa"
          provider_payment_id := pid
          status := .pending
          success := false
          failure := false
          raw_response := some raw } ∧
    w2 = (if isNew then
        { w with payments := w.payments ++ [p], nextPaymentId := w.nextPaymentId + 1 }
      else { w with payments := replacePayment w.payments p }) := by
  simp only [PaymentSerializer.finishCreate] at h
  injection h with h5
  injection h5 with h6 h7
  injection h7 with h8 h9
  subst h8
  subst h9
  subst h6
  exact ⟨rfl, rfl, rfl⟩

lemma initiate_ok_spec {w : World} {user booking_id : Nat} {now : Int}
    {r : ProviderCallResult} {w2 : World} {p : Payment} {url : String}
    (h : initiate w user booking_id now r = .ok (w2, p, url)) :
    ∃ booking pid raw,
      PaymentSerializer.validate w user booking_id now = .ok booking ∧
      r = .ok url pid raw ∧
      p.provider = "yookassa" ∧ p.provider_payment_id = pid ∧
      p.status = .pending ∧ p.raw_response = some raw ∧
      w2.bookings = w.bookings ∧ w2.nextBookingId = w.nextBookingId ∧
      ((∃ e ∈ w.payments, e.booking = booking.id ∧
          (e.status == PaymentStatus.succeeded) = false ∧
          p.id = e.id ∧ p.booking = e.booking ∧ p.amount = e.amount ∧
          w2.payments = replacePayment w.payments p ∧
          w2.nextPaymentId = w.nextPaymentId) ∨
        ((∀ q ∈ w.payments, q.booking ≠ booking.id) ∧
          p.id = w.nextPaymentId ∧ p.booking = booking.id ∧
          p.amount = booking.total_price ∧
          w2.payments = w.payments ++ [p] ∧
          w2.nextPaymentId = w.nextPaymentId + 1)) := by
  unfold initiate at h
  split at h
  case _ => exact absurd h (by simp)
  case _ booking hval =>
    unfold PaymentSerializer.create at h
    split at h
    case _ e hfind =>
      split at h
      case _ => exact absurd h (by simp)
      case _ hsucc =>
        obtain ⟨pid, raw, hr⟩ := finishCreate_ok_provider h
        subst hr
        obtain ⟨hurl, hp, hw2⟩ := finishCreate_ok_spec h
        subst hw2
        subst hp
        exact ⟨booking, pid, raw, hval, rfl, rfl, rfl, rfl, rfl, rfl, rfl,
          Or.inl ⟨e, List.mem_of_find?_eq_some hfind,
            by simpa using List.find?_some hfind, by simpa using hsucc,
            rfl, rfl, rfl, rfl, rfl⟩⟩
    case _ hfind =>
      obtain ⟨pid, raw, hr⟩ := finishCreate_ok_provider h
      subst hr
      obtain ⟨hurl, hp, hw2⟩ := finishCreate_ok_spec h
      subst hw2
      subst hp
      refine ⟨booking, pid, raw, hval, rfl, rfl, rfl, rfl, rfl, rfl, rfl,
        Or.inr ⟨?_, rfl, rfl, rfl, rfl, rfl⟩⟩
      intro q hq hcon
      have := List.find?_eq_none.mp hfind q hq
      exact this (by simpa using hcon)

lemma mem_of_findBooking {w : World} {id : Nat} {inst : Booking}
    (h : findBooking w id = some inst) : inst ∈ w.bookings ∧ inst.id = id := by
  unfold findBooking at h
  refine ⟨List.mem_of_find?_eq_some h, ?_⟩
  have := List.find?_some h
  simpa using this

lemma bound_replaceBooking {bs : List Booking} {b : Booking} {n : Nat}
    (h : ∀ x ∈ bs, x.id < n) : ∀ y ∈ replaceBooking bs b, y.id < n := by
  intro y hy
  obtain ⟨x, hx, hxy⟩ := mem_replaceBooking hy
  rw [hxy, replace_if_id_booking]
  exact h x hx

lemma bound_replacePayment {ps : List Payment} {p : Payment} {n : Nat}
    (h : ∀ x ∈ ps, x.id < n) : ∀ y ∈ replacePayment ps p, y.id < n := by
  intro y hy
  obtain ⟨x, hx, hxy⟩ := mem_replacePayment hy
  rw [hxy, replace_if_id_payment]
  exact h x hx

lemma nodup_append_fresh {bs : List Booking} {b : Booking} {n : Nat}
    (hnodup : (bs.map (·.id)).Nodup) (hb : ∀ x ∈ bs, x.id < n)
    (hid : b.id = n) : ((bs ++ [b]).map (·.id)).Nodup := by
  rw [List.map_append, List.nodup_append]
  refine ⟨hnodup, by simp, ?_⟩
  rw [List.disjoint_left]
  intro a ha hmem
  obtain ⟨x, hx, hxid⟩ := List.mem_map.mp ha
  have ha2 : a = b.id := by simpa using hmem
  rw [← hxid, hid] at ha2
  exact absurd ha2 (Nat.ne_of_lt (hb x hx))

lemma nodup_append_fresh_payment {ps : List Payment} {p : Payment} {n : Nat}
    (hnodup : (ps.map (·.id)).Nodup) (hb : ∀ x ∈ ps, x.id < n)
    (hid : p.id = n) : ((ps ++ [p]).map (·.id)).Nodup := by
  rw [List.map_append, List.nodup_append]
  refine ⟨hnodup, by simp, ?_⟩
  rw [List.disjoint_left]
  intro a ha hmem
  obtain ⟨x, hx, hxid⟩ := List.mem_map.mp ha
  have ha2 : a = p.id := by simpa using hmem
  rw [← hxid, hid] at ha2
  exact absurd ha2 (Nat.ne_of_lt (hb x hx))

lemma nodup_append_new_booking_key {ps : List Payment} {p : Payment}
    (hnodup : (ps.map (·.booking)).Nodup)
    (hfresh : ∀ q ∈ ps, q.booking ≠ p.booking) :
    ((ps ++ [p]).map (·.booking)).Nodup := by
  rw [List.map_append, List.nodup_append]
  refine ⟨hnodup, by simp, ?_⟩
  rw [List.disjoint_left]
  intro a ha hmem
  obtain ⟨x, hx, hxid⟩ := List.mem_map.mp ha
  have ha2 : a = p.booking := by simpa using hmem
  rw [← hxid] at ha2
  exact absurd ha2 (hfresh x hx)

/-- Every transition of the core preserves the reachable-state facts, in
particular the no-double-booking invariant I1 and the one-payment-per-booking
invariant I3. -/
theorem good_step {w w2 : World} (hg : GoodWorld w) (hs : Step w w2) :
    GoodWorld w2 := by
  cases hs with
  | create user attrs now _ _ b h =>
    obtain ⟨v, hv, hbid, hbuser, hbspot, hbtype, hbstart, hbend, hbstatus,
      hbprice, hbcur, hbpaid, hw2b, hw2n, hw2p, hw2np⟩ := createBooking_ok_spec h
    obtain ⟨hlt, hnow, hact, havail⟩ := validate_ok_spec hv
    constructor
    · rw [hw2b]
      exact nodup_append_fresh hg.bNodup hg.bBound hbid
    · intro x hx
      rw [hw2b] at hx
      rw [hw2n]
      rcases List.mem_append.mp hx with hx' | hx'
      · exact Nat.lt_succ_of_lt (hg.bBound x hx')
      · have : x = b := List.mem_singleton.mp hx'
        rw [this, hbid]
        exact Nat.lt_succ_self _
    · rw [hw2b]
      apply noDouble_append hg.noDouble
      intro x hx hxspot hxblock
      rw [hbstart, hbend]
      have hxspot2 : x.spot.id = v.spot.id := by rw [hbspot] at hxspot; exact hxspot
      have := avail_no_overlap havail x hx hxspot2 hxblock (by simp)
      exact this
    · rw [hw2p]
      exact hg.pNodup
    · intro q hq
      rw [hw2p] at hq
      rw [hw2np]
      exact hg.pBound q hq
    · rw [hw2p]
      exact hg.oneP
  | edit id attrs now _ _ b h =>
    obtain ⟨inst, v, hfind, hv, hpend, hbid, hbuser, hbspot, hbtype, hbstart,
      hbend, hbstatus, hbprice, hbcur, hbpaid, hw2b, hw2n, hw2p, hw2np⟩ :=
      editBooking_ok_spec h
    obtain ⟨hlt, hnow, hact, havail⟩ := validate_ok_spec hv
    obtain ⟨hinstMem, hinstId⟩ := mem_of_findBooking hfind
    constructor
    · rw [hw2b, replaceBooking_map_id]
      exact hg.bNodup
    · intro x hx
      rw [hw2b] at hx
      rw [hw2n]
      exact bound_replaceBooking hg.bBound x hx
    · rw [hw2b]
      apply noDouble_replace hg.noDouble
      intro hblock x hx hxid hxspot hxblock
      rw [hbstart, hbend]
      have hxspot2 : x.spot.id = v.spot.id := by rw [hbspot] at hxspot; exact hxspot
      refine avail_no_overlap havail x hx hxspot2 hxblock ?_
      simp only [Option.map_some', ne_eq, Option.some.injEq]
      rw [hbid] at hxid
      rw [hinstId]
      intro hcontra
      rw [← hinstId] at hcontra
      exact hxid hcontra.symm
    · rw [hw2p]
      exact hg.pNodup
    · intro q hq
      rw [hw2p] at hq
      rw [hw2np]
      exact hg.pBound q hq
    · rw [hw2p]
      exact hg.oneP
  | cancel id now _ _ h =>
    obtain ⟨inst, hfind, hns, hw2b, hw2n, hw2p, hw2np⟩ := cancelBooking_ok_spec h
    constructor
    · rw [hw2b, replaceBooking_map_id]
      exact hg.bNodup
    · intro x hx
      rw [hw2b] at hx
      rw [hw2n]
      exact bound_replaceBooking hg.bBound x hx
    · rw [hw2b]
      apply noDouble_replace hg.noDouble
      intro hblock
      simp [BookingStatus.blocksSpot] at hblock
    · rw [hw2p]
      exact hg.pNodup
    · intro q hq
      rw [hw2p] at hq
      rw [hw2np]
      exact hg.pBound q hq
    · rw [hw2p]
      exact hg.oneP
  | initiatePayment user booking_id now r _ =>
    unfold applyInitiate
    split
    case _ w' p url heq =>
      obtain ⟨booking, pid, raw, hval, hr, hprov, hpid, hpstat, hpraw, hwb,
        hwn, hrest⟩ := initiate_ok_spec heq
      rcases hrest with ⟨e, heMem, heBk, heSucc, hpe, hpbk, hpam, hwp, hwnp⟩ |
        ⟨hfresh, hpId, hpbk, hpam, hwp, hwnp⟩
      · constructor
        · rw [hwb]; exact hg.bNodup
        · intro x hx
          rw [hwb] at hx
          rw [hwn]
          exact hg.bBound x hx
        · rw [hwb]; exact hg.noDouble
        · rw [hwp, replacePayment_map_id]
          exact hg.pNodup
        · intro q hq
          rw [hwp] at hq
          rw [hwnp]
          exact bound_replacePayment hg.pBound q hq
        · rw [hwp]
          rw [replacePayment_map_booking hg.pNodup heMem hpe hpbk]
          exact hg.oneP
      · constructor
        · rw [hwb]; exact hg.bNodup
        · intro x hx
          rw [hwb] at hx
          rw [hwn]
          exact hg.bBound x hx
        · rw [hwb]; exact hg.noDouble
        · rw [hwp]
          exact nodup_append_fresh_payment hg.pNodup hg.pBound hpId
        · intro q hq
          rw [hwp] at hq
          rw [hwnp]
          rcases List.mem_append.mp hq with hq' | hq'
          · exact Nat.lt_succ_of_lt (hg.pBound q hq')
          · have : q = p := List.mem_singleton.mp hq'
            rw [this, hpId]
            exact Nat.lt_succ_self _
        · rw [hwp]
          apply nodup_append_new_booking_key hg.oneP
          intro q hq
          rw [hpbk]
          exact hfresh q hq
    case _ e heq =>
      exact hg
  | webhook remote_id payload o _ =>
    unfold apply_webhook
    split
    case _ hfind => exact hg
    case _ p hfind =>
      split
      case _ hterm => exact hg
      case _ hterm =>
        have hpMem : p ∈ w.payments := List.mem_of_find?_eq_some hfind
        have hpay : ∀ d : PaymentStatus × Bool × Bool, ((replacePayment w.payments
            (p.update_status d.1 d.2.1 d.2.2 (some payload))).map (·.id)).Nodup
            ∧ (∀ q ∈ replacePayment w.payments
                (p.update_status d.1 d.2.1 d.2.2 (some payload)),
                q.id < w.nextPaymentId)
            ∧ ((replacePayment w.payments
                (p.update_status d.1 d.2.1 d.2.2 (some payload))).map
                (·.booking)).Nodup := by
          intro d
          refine ⟨?_, ?_, ?_⟩
          · rw [replacePayment_map_id]
            exact hg.pNodup
          · exact bound_replacePayment hg.pBound
          · rw [replacePayment_map_booking hg.pNodup hpMem
              (show (p.update_status d.1 d.2.1 d.2.2 (some payload)).id = p.id
                from rfl)
              (show (p.update_status d.1 d.2.1 d.2.2
                (some payload)).booking = p.booking from rfl)]
            exact hg.oneP
        cases o with
        | succeeded =>
          unfold World.mark_succeeded
          dsimp only
          split
          case _ b hfindb =>
            obtain ⟨hbMem, hbId⟩ := mem_of_findBooking hfindb
            have hbMem2 : b ∈ w.bookings := hbMem
            constructor
            · rw [replaceBooking_map_id]
              exact hg.bNodup
            · exact bound_replaceBooking hg.bBound
            · apply noDouble_replace hg.noDouble
              intro hblock x hx hxid hxspot hxblock
              have hbblock : b.status.blocksSpot = true := by
                unfold Booking.mark_paid at hblock
                by_cases hp2 : (b.status == BookingStatus.pending) = true
                · rw [beq_iff_eq.mp hp2]
                  rfl
                · simp only [hp2, if_neg, Bool.false_eq_true,
                    not_false_eq_true] at hblock
                  exact hblock
              have hxid2 : b.id ≠ x.id := by
                intro hcontra
                exact hxid (by rw [← hcontra]; rfl)
              exact hg.noDouble b hbMem2 x hx hxid2 hbblock hxblock hxspot.symm
            · exact (hpay (.succeeded, true, false)).1
            · exact (hpay (.succeeded, true, false)).2.1
            · exact (hpay (.succeeded, true, false)).2.2
          case _ hfindb =>
            constructor
            · exact hg.bNodup
            · exact hg.bBound
            · exact hg.noDouble
            · exact (hpay (.succeeded, true, false)).1
            · exact (hpay (.succeeded, true, false)).2.1
            · exact (hpay (.succeeded, true, false)).2.2
        | failed =>
          constructor
          · exact hg.bNodup
          · exact hg.bBound
          · exact hg.noDouble
          · exact (hpay (.failed, false, true)).1
          · exact (hpay (.failed, false, true)).2.1
          · exact (hpay (.failed, false, true)).2.2
        | cancelled =>
          constructor
          · exact hg.bNodup
          · exact hg.bBound
          · exact hg.noDouble
          · exact (hpay (.cancelled, false, true)).1
          · exact (hpay (.cancelled, false, true)).2.1
          · exact (hpay (.cancelled, false, true)).2.2
  | expire id _ =>
    unfold expireBooking
    split
    case _ hfind => exact hg
    case _ b hfind =>
      split
      case _ hcond =>
        constructor
        · rw [replaceBooking_map_id]
          exact hg.bNodup
        · exact bound_replaceBooking hg.bBound
        · apply noDouble_replace hg.noDouble
          intro hblock
          simp [BookingStatus.blocksSpot] at hblock
        · exact hg.pNodup
        · exact hg.pBound
        · exact hg.oneP
      case _ hcond => exact hg

lemma find?_replacePayment {ps : List Payment} {p p2 : Payment}
    {pred : Payment → Bool} (hnodup : (ps.map (·.id)).Nodup)
    (hfind : ps.find? pred = some p) (hid : p2.id = p.id)
    (hpred : pred p2 = true) :
    (replacePayment ps p2).find? pred = some p2 := by
  induction ps with
  | nil => simp at hfind
  | cons q qs ih =>
    simp only [List.map_cons, List.nodup_cons, List.mem_map] at hnodup
    by_cases hq : pred q = true
    · rw [List.find?_cons_of_pos _ hq] at hfind
      have hpq : q = p := by injection hfind
      subst hpq
      have hqid : (q.id == p2.id) = true := beq_iff_eq.mpr hid.symm
      have hhead : (if (q.id == p2.id) = true then p2 else q) = p2 :=
        if_pos hqid
      simp only [replacePayment, List.map_cons]
      rw [hhead, List.find?_cons_of_pos _ hpred]
    · rw [List.find?_cons_of_neg _ hq] at hfind
      have hpmem : p ∈ qs := List.mem_of_find?_eq_some hfind
      have hqid : (q.id == p2.id) = false := by
        rw [beq_eq_false_iff_ne]
        rw [hid]
        intro hcontra
        exact hnodup.1 ⟨p, hpmem, hcontra.symm⟩
      have hhead : (if (q.id == p2.id) = true then p2 else q) = q :=
        if_neg (by simp [hqid])
      simp only [replacePayment, List.map_cons]
      rw [hhead, List.find?_cons_of_neg _ hq]
      exact ih hnodup.2 hfind

lemma find?_booking_unique {ps : List Payment} {e : Payment} {bid : Nat}
    (hnodup : (ps.map (·.booking)).Nodup) (he : e ∈ ps)
    (hb : e.booking = bid) :
    ps.find? (·.booking == bid) = some e := by
  induction ps with
  | nil => cases he
  | cons q qs ih =>
    simp only [List.map_cons, List.nodup_cons, List.mem_map] at hnodup
    rcases List.mem_cons.mp he with heq | he2
    · subst heq
      exact List.find?_cons_of_pos _ (beq_iff_eq.mpr hb)
    · have hq : (q.booking == bid) = false := by
        rw [beq_eq_false_iff_ne]
        intro hcontra
        exact hnodup.1 ⟨e, he2, by rw [hb, hcontra]⟩
      rw [List.find?_cons_of_neg _ (by simp [hq])]
      exact ih hnodup.2 he2

lemma mark_succeeded_payments (w : World) (p : Payment) (d : Option String) :
    (w.mark_succeeded p d).payments
      = replacePayment w.payments (p.update_status .succeeded true false d) := by
  unfold World.mark_succeeded
  dsimp only
  split <;> rfl

lemma mem_replacePayment_of_ne {ps : List Payment} {p2 q : Payment}
    (hq : q ∈ ps) (hne : (q.id == p2.id) = false) :
    q ∈ replacePayment ps p2 := by
  unfold replacePayment
  refine List.mem_map.mpr ⟨q, hq, ?_⟩
  rw [if_neg (by simp [hne])]

/-- The reachable-state facts hold in every reachable state. -/
theorem reachable_good {w : World} (h : Reachable w) : GoodWorld w := by
  induction h with
  | init =>
    constructor
    · simp [World.init]
    · intro b hb
      simp [World.init] at hb
    · intro a ha
      simp [World.init] at ha
    · simp [World.init]
    · intro p hp
      simp [World.init] at hp
    · simp [World.init]
  | step _ hs ih => exact good_step ih hs

/-- A concrete active spot: hourly rate 100. -/
def spotA : ParkingSpot :=
  { id := 1, hourly_price := 100, daily_price := 1000, monthly_price := 20000,
    is_active := true }

/-- A booking request for spotA, 600 to 750 minutes (2h 30m), hourly. -/
def attrsA : BookingAttrs :=
  { spot := some spotA, start_at := some 600, end_at := some 750,
    booking_type := some .hourly }

/-- The booking the request above creates: PENDING, price
ceil(2.5h) times 100 = 300. -/
def bookA : Booking :=
  { id := 0, user := 5, spot := spotA, booking_type := .hourly,
    start_at := 600, end_at := 750, status := .pending, total_price := 300,
    currency := "RUB", is_paid := false, external_payment_id := "" }

/-- The world holding exactly bookA. -/
def worldA : World :=
  { bookings := [bookA], payments := [], nextBookingId := 1, nextPaymentId := 0 }

lemma createA : createBooking World.init 5 attrsA 0 = .ok (worldA, bookA) :=
  rfl

/-- A partial edit request: extend the end to 810 minutes. -/
def attrsB : BookingAttrs :=
  { spot := none, start_at := none, end_at := some 810, booking_type := none }

/-- The edited booking: 3h 30m, price 400. -/
def bookB : Booking := { bookA with end_at := 810, total_price := 400 }

/-- The world after the edit. -/
def worldB : World := { worldA with bookings := [bookB] }

/-- A second request overlapping bookA: 700 to 800 on the same spot. -/
def attrsC : BookingAttrs :=
  { spot := some spotA, start_at := some 700, end_at := some 800,
    booking_type := some .hourly }

/-- bookA already confirmed, for the edit-refusal case. -/
def bookC : Booking := { bookA with status := .confirmed }

/-- The world holding exactly bookC. -/
def worldC : World := { worldA with bookings := [bookC] }

/-- The pending payment the provider would create for bookA. -/
def payP : Payment :=
  { id := 0, booking := 0, payer := 5, provider := "yookassa",
    provider_payment_id := "pid", amount := 300, currency := "RUB",
    status := .pending, success := false, failure := false,
    raw_response := some "raw", raw_webhook := none }

/-- A successful provider response. -/
def rOk : ProviderCallResult := .ok "u" "pid" "raw"

/-- The world holding bookA and its pending payment. -/
def worldP : World :=
  { bookings := [bookA], payments := [payP], nextBookingId := 1,
    nextPaymentId := 1 }

/-- payP after a failed charge. -/
def payF : Payment := { payP with status := .failed, failure := true }

/-- The world holding bookA and its failed payment. -/
def worldF : World := { worldP with payments := [payF] }

/-- payF as re-initialized by a payment retry. -/
def payF2 : Payment :=
  { payF with
    provider_payment_id := "pid2"
    status := .pending
    success := false
    failure := false
    raw_response := some "raw2" }

/-- The world after the retry rewrote the failed payment. -/
def worldF2 : World := { worldF with payments := [payF2] }

/-- payP after a successful charge. -/
def payS : Payment := { payP with status := .succeeded, success := true }

/-- The world holding bookA and its succeeded payment. -/
def worldS : World := { worldP with payments := [payS] }

/-- Claim C1: in every reachable state, no two bookings on the same spot
whose status is PENDING, CONFIRMED or ACTIVE have overlapping half-open
intervals (overlap test `a.start < b.end AND b.start < a.end`); every core
operation (create, edit, cancel, confirm via webhook, expire) preserves this,
which is what the induction over `Reachable` uses. -/
theorem claim1_no_double_booking (w : World) (h : Reachable w) :
    NoDoubleBooking w.bookings :=
  (reachable_good h).noDouble

theorem claim1_witness : NoDoubleBooking worldA.bookings :=
  claim1_no_double_booking worldA
    (Reachable.step Reachable.init
      (Step.create 5 attrsA 0 World.init worldA bookA createA))

/-- Claim C2: every create request that passes validation (fields present,
start < end, start not in the past, spot active, interval available) creates
and returns a booking in status PENDING whose total price is the pricing
function applied to the validated fields at creation time and whose currency
is the fixed "RUB". -/
theorem claim2_create_booking (w : World) (user : Nat) (attrs : BookingAttrs)
    (now : Int) (v : ValidatedBooking)
    (h : BookingSerializer.validate w.bookings none attrs now = .ok v) :
    ∃ w2 b, createBooking w user attrs now = .ok (w2, b) ∧
      b.status = .pending ∧
      b.total_price = calculate_price v.spot v.start_at v.end_at v.booking_type ∧
      b.currency = "RUB" ∧
      v.start_at < v.end_at ∧ now ≤ v.start_at ∧ v.spot.is_active = true ∧
      is_spot_available w.bookings v.spot.id v.start_at v.end_at none = true ∧
      b.spot = v.spot ∧ b.start_at = v.start_at ∧ b.end_at = v.end_at ∧
      b.user = user ∧ w2.bookings = w.bookings ++ [b] := by
  have hok : ∃ w2 b, createBooking w user attrs now = .ok (w2, b) := by
    unfold createBooking
    rw [h]
    exact ⟨_, _, rfl⟩
  obtain ⟨w2, b, hcb⟩ := hok
  obtain ⟨v2, hv2, hbid, hbuser, hbspot, hbtype, hbstart, hbend, hbstatus,
    hbprice, hbcur, hbpaid, hw2b, _, _, _⟩ := createBooking_ok_spec hcb
  have hvv : v2 = v := by
    rw [h] at hv2
    injection hv2 with hvv
    exact hvv.symm
  subst hvv
  obtain ⟨hlt, hnow, hact, havail⟩ := validate_ok_spec h
  exact ⟨w2, b, hcb, hbstatus, hbprice, hbcur, hlt, hnow, hact, havail,
    hbspot, hbstart, hbend, hbuser, hw2b⟩

theorem claim2_witness :
    ∃ w2 b, createBooking World.init 5 attrsA 0 = .ok (w2, b) ∧
      b.status = .pending ∧
      b.total_price = calculate_price spotA 600 750 .hourly ∧
      b.currency = "RUB" ∧
      (600 : Int) < 750 ∧ (0 : Int) ≤ 600 ∧ spotA.is_active = true ∧
      is_spot_available World.init.bookings spotA.id 600 750 none = true ∧
      b.spot = spotA ∧ b.start_at = 600 ∧ b.end_at = 750 ∧
      b.user = 5 ∧ w2.bookings = World.init.bookings ++ [b] :=
  claim2_create_booking World.init 5 attrsA 0
    { spot := spotA, start_at := 600, end_at := 750, booking_type := .hourly }
    rfl

/-- Claim C3 counterexample: a request whose interval overlaps an existing
PENDING booking fails, but with the same `serializers.ValidationError` class
(HTTP 400) as a malformed-interval request — the source has no distinct
ConflictError kind, so the claimed distinct error taxonomy is false on the
code.  The final group of conjuncts exhibits that this input really is the
overlap case. -/
theorem claim3_counterexample :
    createBooking worldA 9 attrsC 0 = .error .spotUnavailable ∧
    BookingErr.spotUnavailable.raisedClass = .validationError ∧
    BookingErr.startNotBeforeEnd.raisedClass = .validationError ∧
    (BookingErr.spotUnavailable.raisedClass = ErrorKind.conflictError) = False ∧
    (bookA ∈ worldA.bookings ∧ bookA.status.blocksSpot = true ∧
      bookA.spot.id = spotA.id ∧ (700 : Int) < bookA.end_at ∧
      bookA.start_at < 800) := by
  refine ⟨rfl, rfl, rfl, ?_, by decide⟩
  simp [BookingErr.raisedClass]

/-- Claim C3 as amended: overlap with an existing blocking booking, a
malformed interval (start at or after end, or start in the past) and an
inactive spot each fail with their own distinct error message, but all of
them are raised as the one DRF ValidationError class — there is no separate
ConflictError kind, only a distinct message for the conflict case. -/
theorem claim3_amended_taxonomy :
    (∀ (bookings : List Booking) (spot : ParkingSpot) (s e now : Int)
      (t : Option BookingType), s < e → now ≤ s → spot.is_active = true →
      is_spot_available bookings spot.id s e none = false →
      BookingSerializer.validate bookings none
        ⟨some spot, some s, some e, t⟩ now = .error .spotUnavailable) ∧
    (∀ (bookings : List Booking) (spot : ParkingSpot) (s e now : Int)
      (t : Option BookingType), e ≤ s →
      BookingSerializer.validate bookings none
        ⟨some spot, some s, some e, t⟩ now = .error .startNotBeforeEnd) ∧
    (∀ (bookings : List Booking) (spot : ParkingSpot) (s e now : Int)
      (t : Option BookingType), s < e → s < now →
      BookingSerializer.validate bookings none
        ⟨some spot, some s, some e, t⟩ now = .error .startInPast) ∧
    (∀ (bookings : List Booking) (spot : ParkingSpot) (s e now : Int)
      (t : Option BookingType), s < e → now ≤ s → spot.is_active = false →
      BookingSerializer.validate bookings none
        ⟨some spot, some s, some e, t⟩ now = .error .spotInactive) ∧
    (BookingErr.spotUnavailable ≠ BookingErr.startNotBeforeEnd ∧
      BookingErr.spotUnavailable ≠ BookingErr.startInPast ∧
      BookingErr.spotUnavailable ≠ BookingErr.spotInactive) ∧
    (BookingErr.spotUnavailable.raisedClass = .validationError ∧
      BookingErr.startNotBeforeEnd.raisedClass = .validationError ∧
      BookingErr.startInPast.raisedClass = .validationError ∧
      BookingErr.spotInactive.raisedClass = .validationError) ∧
    ErrorKind.validationError ≠ ErrorKind.conflictError := by
  refine ⟨?_, ?_, ?_, ?_, by decide, by decide, by decide⟩
  · intro bookings spot s e now t h1 h2 h3 h4
    unfold BookingSerializer.validate
    show (if e ≤ s then _ else _) = _
    rw [if_neg (not_le.mpr h1), if_neg (not_lt.mpr h2),
      if_neg (by simp [h3]), if_pos (by simp [h4])]
  · intro bookings spot s e now t h1
    unfold BookingSerializer.validate
    show (if e ≤ s then _ else _) = _
    rw [if_pos h1]
  · intro bookings spot s e now t h1 h2
    unfold BookingSerializer.validate
    show (if e ≤ s then _ else _) = _
    rw [if_neg (not_le.mpr h1), if_pos h2]
  · intro bookings spot s e now t h1 h2 h3
    unfold BookingSerializer.validate
    show (if e ≤ s then _ else _) = _
    rw [if_neg (not_le.mpr h1), if_neg (not_lt.mpr h2), if_pos (by simp [h3])]

theorem claim3_witness :
    BookingSerializer.validate worldA.bookings none
      ⟨some spotA, some 700, some 800, some .hourly⟩ 0
      = .error .spotUnavailable :=
  claim3_amended_taxonomy.1 worldA.bookings spotA 700 800 0 (some .hourly)
    (by decide) (by decide) (by decide) (by decide)

/-- The stored state after a successful cancellation: the booking's status
column is overwritten with CANCELLED. -/
def cancelledWorld (w : World) (inst : Booking) : World :=
  { w with
    bookings := replaceBooking w.bookings { inst with status := .cancelled } }

/-- Claim C4: for a stored booking, cancellation succeeds and sets the status
to CANCELLED exactly when `now < start` (the spec-modelled has_started test);
when `now ≥ start` the view answers 400 with the "already started" failure,
the spec's StateError, and the stored state is unchanged. -/
theorem claim4_cancel_iff_not_started (w : World) (id : Nat) (now : Int)
    (inst : Booking) (h : findBooking w id = some inst) :
    (now < inst.start_at →
      cancelBooking w id now = .ok (cancelledWorld w inst) ∧
      applyCancel w id now = cancelledWorld w inst) ∧
    (inst.start_at ≤ now →
      cancelBooking w id now = .error .alreadyStarted ∧
      applyCancel w id now = w) := by
  constructor
  · intro hlt
    have hns : inst.has_started now = false := by
      unfold Booking.has_started
      simp [not_le.mpr hlt]
    have hcb : cancelBooking w id now = .ok (cancelledWorld w inst) := by
      unfold cancelBooking cancelledWorld
      rw [h]
      dsimp only
      rw [if_neg (by simp [hns])]
    exact ⟨hcb, by unfold applyCancel; rw [hcb]⟩
  · intro hge
    have hst : inst.has_started now = true := by
      unfold Booking.has_started
      simpa using hge
    have hcb : cancelBooking w id now = .error .alreadyStarted := by
      unfold cancelBooking
      rw [h]
      dsimp only
      rw [if_pos hst]
    exact ⟨hcb, by unfold applyCancel; rw [hcb]⟩

theorem claim4_witness :
    cancelBooking worldA 0 0 = .ok (cancelledWorld worldA bookA) ∧
    cancelBooking worldA 0 700 = .error .alreadyStarted :=
  ⟨((claim4_cancel_iff_not_started worldA 0 0 bookA rfl).1 (by decide)).1,
   ((claim4_cancel_iff_not_started worldA 0 700 bookA rfl).2 (by decide)).1⟩

/-- Claim C5: a stored booking can be edited only while PENDING.  A
successful edit implies the stored status was PENDING, the request
re-validated availability excluding the booking itself, and the total price
was recomputed from the validated fields.  When the status is not PENDING the
edit never succeeds and the stored state is unchanged; if the new fields pass
validation the failure is precisely the not-PENDING error (the spec's
StateError, raised as a DRF ValidationError). -/
theorem claim5_edit_only_pending (w : World) (id : Nat) (attrs : BookingAttrs)
    (now : Int) (inst : Booking) (h : findBooking w id = some inst) :
    (∀ w2 b, editBooking w id attrs now = .ok (w2, b) →
      inst.status = .pending ∧
      ∃ v, BookingSerializer.validate w.bookings (some inst) attrs now = .ok v ∧
        is_spot_available w.bookings v.spot.id v.start_at v.end_at
          (some inst.id) = true ∧
        b.id = inst.id ∧ b.spot = v.spot ∧ b.start_at = v.start_at ∧
        b.end_at = v.end_at ∧
        b.total_price = calculate_price v.spot v.start_at v.end_at
          v.booking_type ∧
        w2.bookings = replaceBooking w.bookings b) ∧
    (inst.status ≠ .pending →
      (∀ w2 b, editBooking w id attrs now ≠ .ok (w2, b)) ∧
      applyEdit w id attrs now = w ∧
      (∀ v, BookingSerializer.validate w.bookings (some inst) attrs now
          = .ok v →
        editBooking w id attrs now = .error .editNotPending)) := by
  constructor
  · intro w2 b hok
    obtain ⟨inst2, v, hfind2, hv, hpend, hbid, hbuser, hbspot, hbtype,
      hbstart, hbend, hbstatus, hbprice, hbcur, hbpaid, hw2b, _, _, _⟩ :=
      editBooking_ok_spec hok
    have hinst : inst2 = inst := by
      rw [h] at hfind2
      injection hfind2 with hh
      exact hh.symm
    subst hinst
    obtain ⟨hlt, hnow, hact, havail⟩ := validate_ok_spec hv
    exact ⟨hpend, v, hv, havail, hbid, hbspot, hbstart, hbend, hbprice, hw2b⟩
  · intro hne
    have hne2 : (inst.status != BookingStatus.pending) = true :=
      bne_iff_ne.mpr hne
    have hED : ∃ e0, editBooking w id attrs now = .error e0 := by
      unfold editBooking
      rw [h]
      dsimp only
      cases hvv : BookingSerializer.validate w.bookings (some inst) attrs now
        with
      | error e => exact ⟨e, rfl⟩
      | ok v => exact ⟨.editNotPending, by dsimp only; rw [if_pos hne2]⟩
    obtain ⟨e0, hED⟩ := hED
    refine ⟨?_, ?_, ?_⟩
    · intro w2 b hcontra
      rw [hED] at hcontra
      exact absurd hcontra (by simp)
    · unfold applyEdit
      rw [hED]
    · intro v hv
      unfold editBooking
      rw [h]
      dsimp only
      rw [hv]
      dsimp only
      rw [if_pos hne2]

theorem claim5_witness :
    (bookA.status = .pending ∧
      ∃ v, BookingSerializer.validate worldA.bookings (some bookA) attrsB 0
          = .ok v ∧
        is_spot_available worldA.bookings v.spot.id v.start_at v.end_at
          (some bookA.id) = true ∧
        bookB.id = bookA.id ∧ bookB.spot = v.spot ∧
        bookB.start_at = v.start_at ∧ bookB.end_at = v.end_at ∧
        bookB.total_price = calculate_price v.spot v.start_at v.end_at
          v.booking_type ∧
        worldB.bookings = replaceBooking worldA.bookings bookB) ∧
    applyEdit worldC 0 attrsB 0 = worldC ∧
    editBooking worldC 0 attrsB 0 = .error .editNotPending :=
  ⟨(claim5_edit_only_pending worldA 0 attrsB 0 bookA rfl).1 worldB bookB rfl,
   ((claim5_edit_only_pending worldC 0 attrsB 0 bookC rfl).2
     (by decide)).2.1,
   ((claim5_edit_only_pending worldC 0 attrsB 0 bookC rfl).2
     (by decide)).2.2
     { spot := spotA, start_at := 600, end_at := 810,
       booking_type := .hourly } rfl⟩

/-- Claim C6: webhook application is idempotent.  For any world with distinct
payment primary keys, any remote id and any terminal outcome (the outcome
type has exactly the three terminal outcomes), applying the same outcome a
second time returns the state of the first application unchanged and performs
no booking-side effect (in particular no second confirm-paid call); the
handler is total, so no error is raised. -/
theorem claim6_webhook_idempotent (w : World) (remote_id payload : String)
    (o : WebhookOutcome) (hW : (w.payments.map (·.id)).Nodup) :
    apply_webhook (apply_webhook w remote_id o payload).1 remote_id o payload
      = ((apply_webhook w remote_id o payload).1, []) := by
  cases hfind : w.payments.find? (·.provider_payment_id == remote_id) with
  | none =>
    have h1 : apply_webhook w remote_id o payload = (w, []) := by
      unfold apply_webhook
      rw [hfind]
    rw [h1]
    unfold apply_webhook
    rw [hfind]
  | some p =>
    have hpred : (p.provider_payment_id == remote_id) = true := by
      have := List.find?_some hfind
      simpa using this
    by_cases hterm : p.status.isTerminal = true
    · have h1 : apply_webhook w remote_id o payload = (w, []) := by
        unfold apply_webhook
        rw [hfind]
        dsimp only
        rw [if_pos hterm]
      rw [h1]
      unfold apply_webhook
      rw [hfind]
      dsimp only
      rw [if_pos hterm]
    · cases o with
      | succeeded =>
        have h1 : apply_webhook w remote_id .succeeded payload
            = (w.mark_succeeded p (some payload),
               [.confirmPaid p.booking]) := by
          unfold apply_webhook
          rw [hfind]
          dsimp only
          rw [if_neg hterm]
        rw [h1]
        have hfind2 : (w.mark_succeeded p (some payload)).payments.find?
            (·.provider_payment_id == remote_id)
            = some (p.update_status .succeeded true false (some payload)) := by
          rw [mark_succeeded_payments]
          exact find?_replacePayment hW hfind rfl hpred
        unfold apply_webhook
        rw [hfind2]
        dsimp only
        exact if_pos rfl
      | failed =>
        have h1 : apply_webhook w remote_id .failed payload
            = (w.mark_failed p (some payload), []) := by
          unfold apply_webhook
          rw [hfind]
          dsimp only
          rw [if_neg hterm]
        rw [h1]
        have hfind2 : (w.mark_failed p (some payload)).payments.find?
            (·.provider_payment_id == remote_id)
            = some (p.update_status .failed false true (some payload)) := by
          unfold World.mark_failed
          exact find?_replacePayment hW hfind rfl hpred
        unfold apply_webhook
        rw [hfind2]
        dsimp only
        exact if_pos rfl
      | cancelled =>
        have h1 : apply_webhook w remote_id .cancelled payload
            = (w.mark_cancelled p (some payload), []) := by
          unfold apply_webhook
          rw [hfind]
          dsimp only
          rw [if_neg hterm]
        rw [h1]
        have hfind2 : (w.mark_cancelled p (some payload)).payments.find?
            (·.provider_payment_id == remote_id)
            = some (p.update_status .cancelled false true (some payload)) := by
          unfold World.mark_cancelled
          exact find?_replacePayment hW hfind rfl hpred
        unfold apply_webhook
        rw [hfind2]
        dsimp only
        exact if_pos rfl

theorem claim6_witness :
    apply_webhook (apply_webhook worldP "pid" .succeeded "raw2").1 "pid"
      .succeeded "raw2"
      = ((apply_webhook worldP "pid" .succeeded "raw2").1, []) :=
  claim6_webhook_idempotent worldP "pid" "raw2" .succeeded (by decide)

/-- Claim C7 counterexample: payment initiation reuses a payment that is
already terminal.  worldF holds a FAILED (terminal) payment for the pending
booking bookA; a retry with a successful provider response reuses that very
row (same primary key) and rewrites it back to PENDING, so "initiation reuses
an existing Payment only when that payment is non-terminal (CREATED or
PENDING)" is false on the code — the serializer's reuse test is only
"not SUCCEEDED" (payments/serializers.py 104-111 and its docstring). -/
theorem claim7_counterexample :
    payF.status = .failed ∧ PaymentStatus.failed.isTerminal = true ∧
    worldF.payments = [payF] ∧
    initiate worldF 5 0 0 (.ok "u2" "pid2" "raw2")
      = .ok (worldF2, payF2, "u2") ∧
    payF2.id = payF.id ∧ payF2.status = .pending ∧ payF2 ≠ payF :=
  ⟨rfl, rfl, rfl, rfl, rfl, rfl, by decide⟩

/-- Claim C7 as amended: a SUCCEEDED payment is immutable with respect to
initiation — if the booking's payment is SUCCEEDED, initiation fails with the
"already succeeded" error, and a successful initiation implies the reused row
was not SUCCEEDED; but a FAILED or CANCELLED (terminal) payment IS reused and
rewritten back to PENDING by a retry, so the reuse condition is
"not SUCCEEDED", not "non-terminal".  Webhook application never rewrites an
already-terminal payment. -/
theorem claim7_amended_terminal_payments :
    (∀ (w : World) (user : Nat) (booking : Booking) (r : ProviderCallResult)
      (e : Payment), (w.payments.map (·.booking)).Nodup → e ∈ w.payments →
      e.booking = booking.id →
      (e.status = .succeeded →
        PaymentSerializer.create w user booking r
          = .error .succeededPaymentExists) ∧
      (∀ w2 p url,
        PaymentSerializer.create w user booking r = .ok (w2, p, url) →
        e.status ≠ .succeeded ∧ p.id = e.id ∧ p.status = .pending)) ∧
    (∀ (w : World) (rid payload : String) (o : WebhookOutcome) (q : Payment),
      (w.payments.map (·.id)).Nodup → q ∈ w.payments →
      q.status.isTerminal = true →
      q ∈ (apply_webhook w rid o payload).1.payments) := by
  constructor
  · intro w user booking r e hnodup he hbk
    have hfind : w.payments.find? (·.booking == booking.id) = some e :=
      find?_booking_unique hnodup he hbk
    constructor
    · intro hsucc
      unfold PaymentSerializer.create
      rw [hfind]
      dsimp only
      rw [if_pos (beq_iff_eq.mpr hsucc)]
    · intro w2 p url hok
      unfold PaymentSerializer.create at hok
      rw [hfind] at hok
      dsimp only at hok
      by_cases hs : (e.status == PaymentStatus.succeeded) = true
      · rw [if_pos hs] at hok
        exact absurd hok (by simp)
      · rw [if_neg hs] at hok
        obtain ⟨pid, raw, hr⟩ := finishCreate_ok_provider hok
        subst hr
        obtain ⟨hurl, hp, hw2⟩ := finishCreate_ok_spec hok
        refine ⟨by simpa using hs, ?_, ?_⟩
        · rw [hp]
        · rw [hp]
  · intro w rid payload o q hnodup hq hterm
    unfold apply_webhook
    cases hfind : w.payments.find? (·.provider_payment_id == rid) with
    | none => exact hq
    | some p =>
      dsimp only
      by_cases ht : p.status.isTerminal = true
      · rw [if_pos ht]
        exact hq
      · rw [if_neg ht]
        have hne : q.id ≠ p.id := by
          intro hcontra
          have hqp : q = p :=
            List.inj_on_of_nodup_map hnodup hq
              (List.mem_of_find?_eq_some hfind) hcontra
          rw [hqp] at hterm
          exact ht hterm
        have hmem : ∀ p2 : Payment, p2.id = p.id →
            q ∈ replacePayment w.payments p2 := by
          intro p2 hp2
          refine mem_replacePayment_of_ne hq ?_
          rw [beq_eq_false_iff_ne, hp2]
          exact hne
        cases o with
        | succeeded =>
          show q ∈ (World.mark_succeeded w p (some payload), _).1.payments
          dsimp only
          rw [mark_succeeded_payments]
          exact hmem _ rfl
        | failed =>
          show q ∈ (World.mark_failed w p (some payload), _).1.payments
          dsimp only
          unfold World.mark_failed
          exact hmem _ rfl
        | cancelled =>
          show q ∈ (World.mark_cancelled w p (some payload), _).1.payments
          dsimp only
          unfold World.mark_cancelled
          exact hmem _ rfl

theorem claim7_witness :
    PaymentSerializer.create worldS 5 bookA rOk
      = .error .succeededPaymentExists ∧
    payS ∈ (apply_webhook worldS "pid" .failed "x").1.payments :=
  ⟨(claim7_amended_terminal_payments.1 worldS 5 bookA rOk payS (by decide)
      (by decide) rfl).1 rfl,
   claim7_amended_terminal_payments.2 worldS "pid" "x" .failed payS
      (by decide) (by decide) rfl⟩

/-- Claim C8: payment initiation is rejected, with no new payment persisted
and no state change, whenever the booking is not PENDING, or is already
marked paid, or a SUCCEEDED payment already exists for it, or its total
price is not positive.  (The one-payment-per-booking hypothesis is the
OneToOne key of payments/models.py, which every reachable state satisfies.) -/
theorem claim8_initiate_preconditions (w : World) (user booking_id : Nat)
    (now : Int) (r : ProviderCallResult) (booking : Booking)
    (hfind : findBooking w booking_id = some booking)
    (hOne : (w.payments.map (·.booking)).Nodup)
    (hbad : booking.status ≠ .pending ∨ booking.is_paid = true ∨
      (∃ q ∈ w.payments, q.booking = booking_id ∧ q.status = .succeeded) ∨
      booking.total_price ≤ 0) :
    (∀ w2 p url, initiate w user booking_id now r ≠ .ok (w2, p, url)) ∧
    applyInitiate w user booking_id now r = w := by
  have hnotok : ∀ w2 p url, initiate w user booking_id now r ≠ .ok (w2, p, url) := by
    intro w2 p url hok
    obtain ⟨bk, pid, raw, hval, hr, hprov, hpid, hpstat, hpraw, hwb, hwn,
      hrest⟩ := initiate_ok_spec hok
    obtain ⟨hfind2, hbuser, hbpaid, hbpend, hbend, hbprice⟩ :=
      pvalidate_ok_spec hval
    have hbk : bk = booking := by
      rw [hfind] at hfind2
      injection hfind2 with hh
      exact hh.symm
    subst hbk
    have hbid : bk.id = booking_id := (mem_of_findBooking hfind).2
    rcases hbad with hbad | hbad | ⟨q, hq, hqb, hqs⟩ | hbad
    · exact hbad hbpend
    · rw [hbpaid] at hbad
      exact absurd hbad (by simp)
    · rcases hrest with ⟨e, heMem, heBk, heSucc, hpe, hpbk, hpam, hwp, hwnp⟩ |
        ⟨hfresh, hpId, hpbk, hpam, hwp, hwnp⟩
      · have hqe : q = e := by
          refine List.inj_on_of_nodup_map hOne hq heMem ?_
          rw [hqb, heBk, hbid]
        rw [hqe] at hqs
        rw [hqs] at heSucc
        exact absurd heSucc (by simp)
      · exact hfresh q hq (by rw [hqb, hbid])
    · exact absurd hbprice (not_lt.mpr hbad)
  refine ⟨hnotok, ?_⟩
  unfold applyInitiate
  cases hi : initiate w user booking_id now r with
  | ok v =>
    exact absurd hi (by
      obtain ⟨w2, p, url⟩ := v
      exact hnotok w2 p url)
  | error e => rfl

theorem claim8_witness :
    applyInitiate worldS 5 0 0 rOk = worldS :=
  (claim8_initiate_preconditions worldS 5 0 0 rOk bookA rfl (by decide)
    (Or.inr (Or.inr (Or.inl ⟨payS, by decide, rfl, rfl⟩)))).2

/-- Claim C9: in every reachable state each booking has at most one payment
in a non-terminal state (CREATED or PENDING): two non-terminal payments of
the same booking are the same row.  This holds because payments carry a
OneToOne key on the booking, which initiation (reuse instead of duplicate)
and webhook application (in-place update) preserve — the `Reachable`
induction in `reachable_good` runs exactly over those operations. -/
theorem claim9_one_nonterminal_payment (w : World) (p q : Payment)
    (hR : Reachable w) (hp : p ∈ w.payments) (hq : q ∈ w.payments)
    (hpa : p.is_active = true) (hqa : q.is_active = true)
    (hb : p.booking = q.booking) : p = q :=
  List.inj_on_of_nodup_map (reachable_good hR).oneP hp hq hb

theorem claim9_witness : payP = payP :=
  claim9_one_nonterminal_payment (applyInitiate worldA 5 0 0 rOk) payP payP
    (Reachable.step
      (Reachable.step Reachable.init
        (Step.create 5 attrsA 0 World.init worldA bookA createA))
      (Step.initiatePayment 5 0 0 rOk worldA))
    (by decide) (by decide) rfl rfl rfl

/-- Claim C10: the concrete gateway adapter cannot be constructed.
YooKassaProvider leaves the abstract methods handle_webhook and refund of
PaymentProvider unimplemented, so constructing it raises TypeError; hence
get_payment_provider() and a properly arity-matched create_yookassa_payment
call raise, and the serializer's own call site additionally passes one
argument where three are required, so it raises TypeError even earlier.
Consequently payment initiation with that uncaught Python error never
returns a confirmation URL and never persists provider fields: it always
errors and leaves the state unchanged. -/
theorem claim10_provider_unusable :
    YooKassaProvider.unimplementedAbstractMethods
      = ["handle_webhook", "refund"] ∧
    instantiateYooKassaProvider = .error .typeError ∧
    get_payment_provider "yookassa" = .error .typeError ∧
    create_yookassa_payment_entry = .error .typeError ∧
    serializer_callsite_argCount = 1 ∧
    create_yookassa_payment_paramCount = 3 ∧
    create_yookassa_payment_callsite = .error .typeError ∧
    (∀ (w : World) (user booking_id : Nat) (now : Int),
      (∃ e, initiate w user booking_id now .pythonError = .error e) ∧
      applyInitiate w user booking_id now .pythonError = w) := by
  refine ⟨rfl, rfl, rfl, rfl, rfl, rfl, rfl, ?_⟩
  intro w user booking_id now
  have hED : ∃ e, initiate w user booking_id now .pythonError = .error e := by
    unfold initiate
    cases hv : PaymentSerializer.validate w user booking_id now with
    | error e => exact ⟨e, rfl⟩
    | ok booking =>
      dsimp only
      unfold PaymentSerializer.create
      cases hf : w.payments.find? (·.booking == booking.id) with
      | some e2 =>
        dsimp only
        by_cases hs : (e2.status == PaymentStatus.succeeded) = true
        · rw [if_pos hs]
          exact ⟨.succeededPaymentExists, rfl⟩
        · rw [if_neg hs]
          exact ⟨.pythonTypeError, rfl⟩
      | none =>
        exact ⟨.pythonTypeError, rfl⟩
  obtain ⟨e, hED⟩ := hED
  refine ⟨⟨e, hED⟩, ?_⟩
  unfold applyInitiate
  rw [hED]

end ParkShare
